import Mathlib

/-!
Verification development for the TSLA→BTC regime-edge signal engine
(`src/app.py`).  The two core functions, `_get_daily_regime` (rolling
Granger-causality regime classifier, lines 28–50) and `get_live_signal`
(intraday signal generator, lines 53–110), are shallowly embedded below.

Modelling conventions:
- Real-valued quantities (prices, returns, p-values) are embedded as `ℚ`.
- The external market-data fetches (`yf.download`) are parameters of type
  `Option`: `none` models a raised exception or an otherwise unusable
  result (missing columns, failed rename), `some t` a well-formed table.
- The statistical test `grangercausalitytests(·, maxlag=2)` is an oracle
  parameter `g : GTest α`; `none` models a raised exception on a window,
  `some r` the per-lag result dictionary.  The embedding extracts
  `r.lag2.ssr_ftest.pvalue`, mirroring `res[2][0]["ssr_ftest"][1]`.
- `np.log(daily / daily.shift(1)).dropna()` is embedded with an explicit
  IEEE-tagged value type `RetVal`: a positive price ratio gives a finite
  log-return (represented by the ratio itself, since only definedness and
  identity of values matter downstream), a zero ratio gives `-inf`, an
  infinite ratio `+inf`, a negative ratio `NaN`; `dropna` removes exactly
  the rows containing a `NaN`.
- The display-only write to `cache["last_update"]` is modelled by passing
  the generation timestamp `now` through to the output record.
-/

/-- One row of the `ssr_ftest` entry of a statsmodels lag result:
the tuple `(F, p, df_denom, df_num)`. -/
structure FTestR where
  fstat : ℚ
  pvalue : ℚ
  df_denom : ℚ
  df_num : ℚ
  deriving DecidableEq, Repr

/-- A chi-square style test entry `(stat, p, df)`. -/
structure Chi2R where
  stat : ℚ
  pvalue : ℚ
  df : ℚ
  deriving DecidableEq, Repr

/-- The test dictionary produced by `grangercausalitytests` for one lag
order: the four reported statistics. -/
structure LagResult where
  ssr_ftest : FTestR
  ssr_chi2test : Chi2R
  lrtest : Chi2R
  params_ftest : FTestR
  deriving DecidableEq, Repr

/-- The result of `grangercausalitytests(subset.values, maxlag=2)`:
one `LagResult` per lag order 1 and 2 (`res[1][0]` and `res[2][0]`). -/
structure GrangerResult where
  lag1 : LagResult
  lag2 : LagResult
  deriving DecidableEq, Repr

/-- Oracle for the external statistical test on one window of paired
observations: `none` models a raised exception, `some r` success. -/
abbrev GTest (α : Type) := List (α × α) → Option GrangerResult

/-- One row of a two-column aligned table indexed by date (the BTC column
comes first, matching the alphabetical yfinance column order). -/
structure LRow (α : Type) where
  date : ℤ
  btc : α
  tsla : α
  deriving DecidableEq, Repr, Inhabited

/-- An IEEE double produced by `np.log` of a price ratio, as classified by
sign: `fin q` is the finite value `ln q` for a positive ratio `q`
(represented by the ratio, which determines it), `posInf`/`negInf` are
the infinities, `nan` is Not-a-Number. -/
inductive RetVal where
  | fin (q : ℚ)
  | posInf
  | negInf
  | nan
  deriving DecidableEq, Repr

instance : Inhabited RetVal := ⟨RetVal.nan⟩

/-- IEEE semantics of `np.log(cur / prev)` for one cell (line 31):
positive ratio → finite; `log 0 = -inf` (also for the ratio `-0.0`
arising from `cur = 0, prev < 0`); `log inf = inf`; a negative or
indeterminate ratio → `NaN`. -/
def logRet (prev cur : ℚ) : RetVal :=
  if 0 < prev then
    if 0 < cur then RetVal.fin (cur / prev)
    else if cur = 0 then RetVal.negInf
    else RetVal.nan
  else if prev = 0 then
    if 0 < cur then RetVal.posInf
    else RetVal.nan
  else
    if cur < 0 then RetVal.fin (cur / prev)
    else if cur = 0 then RetVal.negInf
    else RetVal.nan

/-- Whether a cell is `NaN` (what `dropna` tests). -/
def RetVal.isNan : RetVal → Bool
  | RetVal.nan => true
  | _ => false

/-- `daily / daily.shift(1)` row-paired with `np.log` applied cellwise:
row `t` of the result pairs row `t-1` with row `t` and keeps the date of
row `t`.  The first raw row (whose shifted partner is absent) produces no
output row, matching the all-`NaN` first row that `dropna` removes. -/
def pairRows : List (LRow ℚ) → List (LRow RetVal)
  | a :: b :: rest =>
      ⟨b.date, logRet a.btc b.btc, logRet a.tsla b.tsla⟩ :: pairRows (b :: rest)
  | _ => []

/-- `returns = np.log(daily / daily.shift(1)).dropna()` (line 31):
cellwise log-ratios, then `dropna` removes every row containing a `NaN`
cell.  Note that infinite cells are NOT `NaN` and survive `dropna`. -/
def buildReturns (daily : List (LRow ℚ)) : List (LRow RetVal) :=
  (pairRows daily).filter fun r => !r.btc.isNan && !r.tsla.isNan

/-- The window `returns.iloc[i-90:i]` (line 37) as a list of paired
column values, i.e. the trailing 90 observations with indices
`[i-90, i)`. -/
def windowVals {α : Type} (rows : List (LRow α)) (i : ℕ) : List (α × α) :=
  ((rows.drop (i - 90)).take 90).map fun r => (r.btc, r.tsla)

/-- The p-value recorded for loop index `i` (lines 38–42): the
`ssr_ftest` p-value at the maximum lag order 2 (`res[2][0]["ssr_ftest"][1]`)
on success, and `1.0` when the test raises. -/
def scoreAt {α : Type} (g : GTest α) (rows : List (LRow α)) (i : ℕ) : ℚ :=
  match g (windowVals rows i) with
  | some res => res.lag2.ssr_ftest.pvalue
  | none => 1

/-- The rolling series `rolling_p = pd.Series(pvals, index=dates)`
(lines 34–45): for each `i in range(90, len(returns))`, the pair of
`returns.index[i]` and the recorded p-value for window `i`. -/
def rolling_p {α : Type} [Inhabited α] (g : GTest α) (rows : List (LRow α)) :
    List (ℤ × ℚ) :=
  ((List.range rows.length).drop 90).map fun i =>
    ((rows.getD i default).date, scoreAt g rows i)

/-- Round-half-to-even to an integer, the tie-breaking rule of the Python
built-in `round`. -/
def roundHalfEven (x : ℚ) : ℤ :=
  let f := ⌊x⌋
  let r := x - f
  if r < 1/2 then f
  else if 1/2 < r then f + 1
  else if f % 2 = 0 then f else f + 1

/-- `round(x, 5)` with exact decimal semantics. -/
def round5 (x : ℚ) : ℚ := (roundHalfEven (x * 100000) : ℚ) / 100000

/-- `_get_daily_regime()` (lines 28–50).  `download = none` models any
failure of the daily fetch or of the column rename, caught by the outer
bare `except` and returning `(False, 1.00000)`.  When the rolling series
is empty, `rolling_p.iloc[-1]` raises `IndexError`, which the same outer
`except` converts to the same default.  Otherwise the regime flag is
`latest_p < 0.10` on the UNROUNDED score and the reported p-value is
`round(latest_p, 5)`. -/
def _get_daily_regime (g : GTest RetVal) (download : Option (List (LRow ℚ))) :
    Bool × ℚ :=
  match download with
  | none => (false, 1)
  | some daily =>
    match (rolling_p g (buildReturns daily)).getLast? with
    | none => (false, 1)
    | some (_, latest_p) => (decide (latest_p < 1/10), round5 latest_p)

/-- One row of the intraday 5-minute close table after the rename to
columns `BTC`, `TSLA` and after `dropna()` (lines 58–61). -/
structure IRow where
  btc : ℚ
  tsla : ℚ
  deriving DecidableEq, Repr, Inhabited

/-- One row of the 2-day daily fallback close table, columns
`BTC-USD` and `TSLA` (line 75). -/
structure DRow where
  btc_usd : ℚ
  tsla : ℚ
  deriving DecidableEq, Repr, Inhabited

/-- The dictionary returned by `get_live_signal` (lines 100–110). -/
structure SignalOut where
  signal : String
  color : String
  reason : String
  regime : String
  p_value : ℚ
  tsla_change : ℚ
  btc_price : ℚ
  tsla_price : ℚ
  timestamp : String
  deriving DecidableEq, Repr

/-- The decision table of `get_live_signal` (lines 81–96), evaluated in
source order with the first matching branch winning, returning
`(signal, color, reason)`. -/
def signal_logic (regime_active : Bool) (tsla_change : ℚ) :
    String × String × String :=
  if !regime_active then ("FLAT", "#888888", "Regime inactive")
  else if 15/10000 < tsla_change then ("LONG BTC", "#00ff41", "TSLA strongly up")
  else if tsla_change < -(15/10000) then ("SHORT BTC", "#ff4444", "TSLA strongly down")
  else ("FLAT", "#888888", "TSLA movement below threshold")

/-- The body of `get_live_signal` after the regime has been computed
(lines 56–110), with the regime pair as an explicit argument.
`intraday = none` models a raised intraday fetch (or failed
rename/column access); `some rows` is the post-`dropna` table.  Fewer
than 2 intraday rows raises `ValueError`, caught by the same `except`,
so both cases take the fallback branch.  The fallback daily fetch
(line 75) is NOT inside any `try`: its failure (`fallback = none`),
or an empty fallback table (`iloc[-1]` on an empty column), escapes
`get_live_signal` as an exception, modelled by `Except.error`. -/
def get_live_signal_core (regime : Bool × ℚ) (intraday : Option (List IRow))
    (fallback : Option (List DRow)) (now : String) : Except String SignalOut :=
  let regime_active := regime.1
  let p_value := regime.2
  let mk : ℚ → ℚ → ℚ → SignalOut := fun tsla_change btc_price tsla_price =>
    let s := signal_logic regime_active tsla_change
    { signal := s.1, color := s.2.1, reason := s.2.2,
      regime := if regime_active then "ACTIVE" else "INACTIVE",
      p_value := p_value, tsla_change := tsla_change,
      btc_price := btc_price, tsla_price := tsla_price, timestamp := now }
  let primary : Option (ℚ × ℚ × ℚ) :=
    match intraday with
    | none => none
    | some rows =>
      if rows.length < 2 then none
      else
        let tsla_now := (rows.getD (rows.length - 1) default).tsla
        let tsla_prev := (rows.getD (rows.length - 2) default).tsla
        some ((tsla_now / tsla_prev) - 1,
              (rows.getD (rows.length - 1) default).btc, tsla_now)
  match primary with
  | some (c, b, t) => Except.ok (mk c b t)
  | none =>
    match fallback with
    | none => Except.error ("DataRetrievalError")
    | some daily =>
      match daily.getLast? with
      | none => Except.error ("IndexError")
      | some last => Except.ok (mk 0 last.btc_usd last.tsla)

/-- `get_live_signal()` (lines 53–110): computes the regime via
`_get_daily_regime` and then runs the intraday/fallback logic. -/
def get_live_signal (g : GTest RetVal) (dailyDl : Option (List (LRow ℚ)))
    (intraday : Option (List IRow)) (fallback : Option (List DRow))
    (now : String) : Except String SignalOut :=
  get_live_signal_core (_get_daily_regime g dailyDl) intraday fallback now

/-! Concrete test fixtures used to instantiate the theorems below. -/

/-- An `ssr_ftest` tuple carrying a given p-value. -/
def ftestP (p : ℚ) : FTestR := ⟨0, p, 0, 0⟩

/-- A lag result whose `ssr_ftest` p-value is `p`. -/
def lagWithP (p : ℚ) : LagResult := ⟨ftestP p, ⟨0, 0, 0⟩, ⟨0, 0, 0⟩, ftestP 0⟩

/-- A Granger oracle that always succeeds, reporting `ssr_ftest` p-value
`p1` at lag 1 and `p2` at lag 2. -/
def gConst {α : Type} (p1 p2 : ℚ) : GTest α :=
  fun _ => some ⟨lagWithP p1, lagWithP p2⟩

/-- 92 days of constant unit prices (giving 91 aligned return rows). -/
def daily92 : List (LRow ℚ) := (List.range 92).map fun i => ⟨(i : ℤ), 1, 1⟩

/-- 92 aligned return rows with strictly increasing dates and
index-dependent values, so that distinct windows have distinct
contents. -/
def c6rows : List (LRow ℚ) := (List.range 92).map fun i => ⟨(i : ℤ), (i : ℚ), (i : ℚ)⟩

/-- An oracle that raises exactly on the one window whose first row of
paired values is `(0, 0)` (the window ending at index 90 of `c6rows`)
and succeeds on every other window. -/
def gC6fail : GTest ℚ :=
  fun w => if w.headD (0, 0) = ((0 : ℚ), (0 : ℚ)) then none
           else some ⟨lagWithP 0, lagWithP 7⟩

/-- Three days of daily prices in which the TSLA price touches 0. -/
def c9daily : List (LRow ℚ) := [⟨0, 1, 1⟩, ⟨1, 1, 0⟩, ⟨2, 1, 1⟩]

/-- The Signal that the fallback path produces: FLAT, change 0, prices
taken from the last row of the 2-day daily table. -/
def fallback_out (active : Bool) (p : ℚ) (last : DRow) (now : String) : SignalOut :=
  { signal := "FLAT", color := "#888888",
    reason := if active then "TSLA movement below threshold" else "Regime inactive",
    regime := if active then "ACTIVE" else "INACTIVE",
    p_value := p, tsla_change := 0,
    btc_price := last.btc_usd, tsla_price := last.tsla, timestamp := now }

/-! Helper lemmas about the rolling scan. -/

/-- Length of the 92-row fixtures. -/
theorem c6rows_length : c6rows.length = 92 := rfl

/-- Length of the constant-price fixture. -/
theorem daily92_length : daily92.length = 92 := rfl

/-- The rolling series has one entry per loop index `i ∈ [90, len)`. -/
theorem rolling_p_length {α : Type} [Inhabited α] (g : GTest α)
    (rows : List (LRow α)) :
    (rolling_p g rows).length = rows.length - 90 := by
  simp [rolling_p]

/-- The entry of the rolling series at position `i - 90` is the date of
row `i` paired with the score of window `i`. -/
theorem rolling_p_getD {α : Type} [Inhabited α] (g : GTest α)
    (rows : List (LRow α)) (i : ℕ) (h90 : 90 ≤ i) (h : i < rows.length) :
    (rolling_p g rows).getD (i - 90) (0, 0) =
      ((rows.getD i default).date, scoreAt g rows i) := by
  have hi : 90 + (i - 90) = i := by omega
  have hidx : ((List.range rows.length).drop 90)[i - 90]? = some i := by
    rw [List.getElem?_drop, hi, List.getElem?_range h]
  simp only [rolling_p]
  rw [List.getD_eq_getElem?_getD, List.getElem?_map, hidx]
  rfl

/-- A successfully tested window records the lag-2 `ssr_ftest`
p-value. -/
theorem scoreAt_eq_of_some {α : Type} (g : GTest α) (rows : List (LRow α)) (i : ℕ)
    (r : GrangerResult) (h : g (windowVals rows i) = some r) :
    scoreAt g rows i = r.lag2.ssr_ftest.pvalue := by
  unfold scoreAt
  rw [h]

/-- A window on which the test raises records the score 1. -/
theorem scoreAt_eq_of_none {α : Type} (g : GTest α) (rows : List (LRow α)) (i : ℕ)
    (h : g (windowVals rows i) = none) :
    scoreAt g rows i = 1 := by
  unfold scoreAt
  rw [h]

/-- C4: on an aligned return series of length at least 91, the rolling
classifier produces exactly `len - 90` scores; the entry recorded at
position `i - 90` carries the date of row `i` and the score of window
`i`; that window is exactly the 90 paired observations with indices
`[i-90, i)`; every score lies in `[0, 1]` (granted that the external
test reports p-values in `[0, 1]`); and the as-of dates are strictly
increasing whenever the input dates are. -/
theorem spec_C4 (g : GTest ℚ) (rows : List (LRow ℚ)) (_hlen : 91 ≤ rows.length)
    (hp : ∀ w r, g w = some r →
      0 ≤ r.lag2.ssr_ftest.pvalue ∧ r.lag2.ssr_ftest.pvalue ≤ 1)
    (hd : (rows.map LRow.date).Pairwise (· < ·)) :
    (rolling_p g rows).length = rows.length - 90 ∧
    (∀ i, 90 ≤ i → i < rows.length →
      (rolling_p g rows).getD (i - 90) (0, 0) =
        ((rows.getD i default).date, scoreAt g rows i)) ∧
    (∀ i, 90 ≤ i → i < rows.length → (windowVals rows i).length = 90) ∧
    (∀ i k, 90 ≤ i → i < rows.length → k < 90 →
      (windowVals rows i).getD k (0, 0) =
        ((rows.getD (i - 90 + k) default).btc, (rows.getD (i - 90 + k) default).tsla)) ∧
    (∀ s ∈ rolling_p g rows, 0 ≤ s.2 ∧ s.2 ≤ 1) ∧
    ((rolling_p g rows).map Prod.fst).Pairwise (· < ·) := by
  refine ⟨rolling_p_length g rows,
    fun i h90 hi => rolling_p_getD g rows i h90 hi, ?_, ?_, ?_, ?_⟩
  · intro i h90 hi
    simp only [windowVals, List.length_map, List.length_take, List.length_drop]
    omega
  · intro i k h90 hi hk
    have hko : i - 90 + k < rows.length := by omega
    have h1 : ((rows.drop (i - 90)).take 90)[k]? = some (rows.get ⟨i - 90 + k, hko⟩) := by
      rw [List.getElem?_take, if_pos hk, List.getElem?_drop,
        List.getElem?_eq_getElem hko]
      rfl
    simp only [windowVals]
    rw [List.getD_eq_getElem?_getD, List.getElem?_map, h1]
    rw [List.getD_eq_getElem rows default hko]
    rfl
  · intro s hs
    simp only [rolling_p, List.mem_map] at hs
    obtain ⟨i, hi, rfl⟩ := hs
    cases hg : g (windowVals rows i) with
    | none =>
        rw [show ((rows.getD i default).date, scoreAt g rows i).2 = scoreAt g rows i from rfl,
          scoreAt_eq_of_none g rows i hg]
        norm_num
    | some r =>
        rw [show ((rows.getD i default).date, scoreAt g rows i).2 = scoreAt g rows i from rfl,
          scoreAt_eq_of_some g rows i r hg]
        exact hp _ r hg
  · have hmapfst : (rolling_p g rows).map Prod.fst =
        ((List.range rows.length).drop 90).map fun i => (rows.getD i default).date := by
      simp only [rolling_p, List.map_map]
      rfl
    rw [hmapfst, List.pairwise_map]
    have hrange : ((List.range rows.length).drop 90).Pairwise (· < ·) :=
      List.Pairwise.sublist (List.drop_sublist 90 (List.range rows.length))
        (List.pairwise_lt_range rows.length)
    refine hrange.imp_of_mem ?_
    intro a b ha hb hab
    have haL : a < rows.length := List.mem_range.mp (List.mem_of_mem_drop ha)
    have hbL : b < rows.length := List.mem_range.mp (List.mem_of_mem_drop hb)
    have hda := List.pairwise_iff_getElem.mp hd a b (by simpa) (by simpa) hab
    rw [List.getD_eq_getElem rows default haL, List.getD_eq_getElem rows default hbL]
    simpa using hda

/-- Witness for C4 on 92 concrete return rows and an oracle reporting
constant p-values. -/
theorem spec_C4_witness :
    (rolling_p (@gConst ℚ (1/2) (1/20)) c6rows).length = c6rows.length - 90 ∧
    c6rows.length - 90 = 2 :=
  ⟨(spec_C4 (@gConst ℚ (1/2) (1/20)) c6rows
      (by rw [c6rows_length]; norm_num)
      (by
        intro w r h
        simp only [gConst, Option.some.injEq] at h
        subst h
        norm_num [lagWithP, ftestP])
      (by
        have hmap : c6rows.map LRow.date = (List.range 92).map fun i => (i : ℤ) := by
          simp only [c6rows, List.map_map]
          rfl
        rw [hmap]
        exact List.Pairwise.map (fun i : ℕ => (i : ℤ))
          (fun a b h => by show (a : ℤ) < (b : ℤ); exact_mod_cast h)
          (List.pairwise_lt_range 92))).1,
   by rw [c6rows_length]⟩

/-- C6: if the test raises on exactly one window `j` and succeeds on
all others, the scan still completes with the same number of entries as
a fully successful scan, records exactly 1.0 for window `j`, and every
other recorded entry coincides with the fully successful one. -/
theorem spec_C6 (g gOK : GTest ℚ) (rows : List (LRow ℚ)) (j : ℕ)
    (hj0 : 90 ≤ j) (hj1 : j < rows.length)
    (hfail : g (windowVals rows j) = none)
    (_hOK : ∀ i, i < rows.length → 90 ≤ i → (gOK (windowVals rows i)).isSome = true)
    (hagree : ∀ i, i < rows.length → 90 ≤ i → i ≠ j →
      g (windowVals rows i) = gOK (windowVals rows i)) :
    (rolling_p g rows).length = (rolling_p gOK rows).length ∧
    (rolling_p g rows).getD (j - 90) (0, 0) = ((rows.getD j default).date, 1) ∧
    (∀ i, i < rows.length → 90 ≤ i → i ≠ j →
      (rolling_p g rows).getD (i - 90) (0, 0) =
        (rolling_p gOK rows).getD (i - 90) (0, 0)) := by
  refine ⟨by rw [rolling_p_length, rolling_p_length], ?_, ?_⟩
  · rw [rolling_p_getD g rows j hj0 hj1, scoreAt_eq_of_none g rows j hfail]
  · intro i hi h90 hne
    rw [rolling_p_getD g rows i h90 hi, rolling_p_getD gOK rows i h90 hi]
    have hsc : scoreAt g rows i = scoreAt gOK rows i := by
      unfold scoreAt
      rw [hagree i hi h90 hne]
    rw [hsc]

/-- Witness for C6: on `c6rows` the oracle `gC6fail` raises exactly on
the window ending at index 90 and agrees with the always-successful
oracle on the window ending at index 91. -/
theorem spec_C6_witness :
    (rolling_p gC6fail c6rows).length = (rolling_p (@gConst ℚ 0 7) c6rows).length ∧
    (rolling_p gC6fail c6rows).getD (90 - 90) (0, 0) = ((c6rows.getD 90 default).date, 1) :=
  ⟨(spec_C6 gC6fail (@gConst ℚ 0 7) c6rows 90 (by norm_num)
      (by rw [c6rows_length]; norm_num)
      rfl (fun i hi h90 => rfl)
      (by
        intro i hi h90 hne
        rw [c6rows_length] at hi
        interval_cases i
        · exact absurd rfl hne
        · rfl)).1,
   (spec_C6 gC6fail (@gConst ℚ 0 7) c6rows 90 (by norm_num)
      (by rw [c6rows_length]; norm_num)
      rfl (fun i hi h90 => rfl)
      (by
        intro i hi h90 hne
        rw [c6rows_length] at hi
        interval_cases i
        · exact absurd rfl hne
        · rfl)).2.1⟩

/-- C8: the score recorded for a successfully tested window is the
`ssr_ftest` p-value at the maximum lag order 2; it is also the entry
recorded in the rolling series, and any other oracle outcome agreeing
at lag 2 — whatever it reports at lag 1 — yields the same score. -/
theorem spec_C8 (g : GTest ℚ) (rows : List (LRow ℚ)) (i : ℕ) (r : GrangerResult)
    (h : g (windowVals rows i) = some r) :
    scoreAt g rows i = r.lag2.ssr_ftest.pvalue ∧
    (90 ≤ i → i < rows.length →
      (rolling_p g rows).getD (i - 90) (0, 0) =
        ((rows.getD i default).date, r.lag2.ssr_ftest.pvalue)) ∧
    (∀ (g2 : GTest ℚ) (r2 : GrangerResult), g2 (windowVals rows i) = some r2 →
      r2.lag2 = r.lag2 → scoreAt g2 rows i = scoreAt g rows i) := by
  refine ⟨scoreAt_eq_of_some g rows i r h, ?_, ?_⟩
  · intro h90 hi
    rw [rolling_p_getD g rows i h90 hi, scoreAt_eq_of_some g rows i r h]
  · intro g2 r2 h2 hl
    rw [scoreAt_eq_of_some g2 rows i r2 h2, scoreAt_eq_of_some g rows i r h, hl]

/-- Witness for C8: two oracles whose lag-1 p-values differ (3/4 versus
9/10) but whose lag-2 p-values agree produce the same recorded score,
namely the lag-2 value 1/4. -/
theorem spec_C8_witness :
    scoreAt (@gConst ℚ (3/4) (1/4)) [] 0 = 1/4 ∧
    scoreAt (@gConst ℚ (9/10) (1/4)) [] 0 = scoreAt (@gConst ℚ (3/4) (1/4)) [] 0 :=
  ⟨(spec_C8 (@gConst ℚ (3/4) (1/4)) [] 0 ⟨lagWithP (3/4), lagWithP (1/4)⟩ rfl).1,
   (spec_C8 (@gConst ℚ (3/4) (1/4)) [] 0 ⟨lagWithP (3/4), lagWithP (1/4)⟩ rfl).2.2
     (@gConst ℚ (9/10) (1/4)) ⟨lagWithP (9/10), lagWithP (1/4)⟩ rfl rfl⟩

/-- C1: with the regime inactive the signal is FLAT with reason
"Regime inactive" for every intraday change; with the regime active the
decision table gives LONG above `+0.0015`, SHORT below `-0.0015`, and
FLAT with the below-threshold reason otherwise, including at exactly
`±0.0015` (strict comparisons). -/
theorem spec_C1 (c : ℚ) :
    signal_logic false c = ("FLAT", "#888888", "Regime inactive") ∧
    (15/10000 < c →
      signal_logic true c = ("LONG BTC", "#00ff41", "TSLA strongly up")) ∧
    (c < -(15/10000) →
      signal_logic true c = ("SHORT BTC", "#ff4444", "TSLA strongly down")) ∧
    (-(15/10000) ≤ c → c ≤ 15/10000 →
      signal_logic true c = ("FLAT", "#888888", "TSLA movement below threshold")) := by
  refine ⟨by simp [signal_logic], fun h => ?_, fun h => ?_, fun h1 h2 => ?_⟩
  · simp [signal_logic, h]
  · have hnot : ¬(15/10000 < c) := by linarith
    simp [signal_logic, h, hnot]
  · have hnot1 : ¬(15/10000 < c) := not_lt.mpr h2
    have hnot2 : ¬(c < -(15/10000)) := not_lt.mpr h1
    simp [signal_logic, hnot1, hnot2]

/-- Witness for C1 at the boundary and near-boundary changes. -/
theorem spec_C1_witness :
    signal_logic true (16/10000) = ("LONG BTC", "#00ff41", "TSLA strongly up") ∧
    signal_logic true (-(16/10000)) = ("SHORT BTC", "#ff4444", "TSLA strongly down") ∧
    signal_logic true (15/10000) = ("FLAT", "#888888", "TSLA movement below threshold") ∧
    signal_logic true (-(15/10000)) = ("FLAT", "#888888", "TSLA movement below threshold") :=
  ⟨(spec_C1 (16/10000)).2.1 (by norm_num),
   (spec_C1 (-(16/10000))).2.2.1 (by norm_num),
   (spec_C1 (15/10000)).2.2.2 (by norm_num) (by norm_num),
   (spec_C1 (-(15/10000))).2.2.2 (by norm_num) (by norm_num)⟩

/-- C2: whenever the intraday data is unavailable (`none`) or has fewer
than 2 rows, the generator uses the most recent daily closes as both
prices, sets the change to 0, and the decision table then yields FLAT
for every regime state, so the fallback never emits LONG or SHORT. -/
theorem spec_C2 (active : Bool) (p : ℚ) (intraday : Option (List IRow))
    (hintra : intraday = none ∨ ∃ rows, intraday = some rows ∧ rows.length < 2)
    (daily : List DRow) (last : DRow) (hlast : daily.getLast? = some last)
    (now : String) :
    ∃ out, get_live_signal_core (active, p) intraday (some daily) now = Except.ok out ∧
      out.signal = "FLAT" ∧
      out.reason = (if active then "TSLA movement below threshold" else "Regime inactive") ∧
      out.tsla_change = 0 ∧ out.btc_price = last.btc_usd ∧
      out.tsla_price = last.tsla := by
  have hsig : signal_logic active 0 =
      ("FLAT", "#888888",
        if active then "TSLA movement below threshold" else "Regime inactive") := by
    cases active <;> norm_num [signal_logic]
  refine ⟨fallback_out active p last now, ?_, rfl, rfl, rfl, rfl, rfl⟩
  rcases hintra with h | ⟨rows, h, hlt⟩
  · subst h
    simp [get_live_signal_core, fallback_out, hlast, hsig]
  · subst h
    simp [get_live_signal_core, fallback_out, hlast, hsig, hlt]

/-- Witness for C2: a failed intraday fetch with an active regime. -/
theorem spec_C2_witness :
    ∃ out, get_live_signal_core (true, 1/20) none (some [⟨100, 200⟩]) ("t") = Except.ok out ∧
      out.signal = "FLAT" ∧
      out.reason = (if true then "TSLA movement below threshold" else "Regime inactive") ∧
      out.tsla_change = 0 ∧ out.btc_price = (⟨100, 200⟩ : DRow).btc_usd ∧
      out.tsla_price = (⟨100, 200⟩ : DRow).tsla :=
  spec_C2 true (1/20) none (Or.inl rfl) [⟨100, 200⟩] ⟨100, 200⟩ rfl ("t")

/-- C3 fails on the code: when the intraday fetch fails AND the 2-day
daily fallback fetch (line 75, outside any `try`) also fails,
`get_live_signal` propagates the failure to its caller instead of
returning a Signal. -/
theorem spec_C3_counterexample :
    get_live_signal (fun _ => none) none none none ("t") =
      Except.error ("DataRetrievalError") := rfl

/-- C3 amended: the generator returns a Signal for every outcome of the
intraday fetch, provided that whenever the fallback is needed the 2-day
daily fetch succeeds with at least one row; only a failing (or empty)
fallback fetch lets a failure escape. -/
theorem spec_C3_amended (g : GTest RetVal) (dailyDl : Option (List (LRow ℚ)))
    (intraday : Option (List IRow)) (fallback : Option (List DRow)) (now : String)
    (h : (∃ rows, intraday = some rows ∧ 2 ≤ rows.length) ∨
         (∃ d last, fallback = some d ∧ d.getLast? = some last)) :
    ∃ out, get_live_signal g dailyDl intraday fallback now = Except.ok out := by
  rcases h with ⟨rows, hi, hlen⟩ | ⟨d, last, hf, hlast⟩
  · subst hi
    simp only [get_live_signal, get_live_signal_core]
    rw [if_neg (Nat.not_lt.mpr hlen)]
    exact ⟨_, rfl⟩
  · subst hf
    cases intraday with
    | none =>
        simp only [get_live_signal, get_live_signal_core, hlast]
        exact ⟨_, rfl⟩
    | some rows =>
        by_cases hlen : rows.length < 2
        · simp only [get_live_signal, get_live_signal_core, hlast]
          rw [if_pos hlen]
          simp only [hlast]
          exact ⟨_, rfl⟩
        · simp only [get_live_signal, get_live_signal_core]
          rw [if_neg hlen]
          exact ⟨_, rfl⟩

/-- Witness for the amended C3: failed intraday fetch, successful
fallback fetch. -/
theorem spec_C3_witness :
    ∃ out, get_live_signal (fun _ => none) none none (some [⟨1, 2⟩]) ("t") = Except.ok out :=
  spec_C3_amended (fun _ => none) none none (some [⟨1, 2⟩]) ("t")
    (Or.inr ⟨[⟨1, 2⟩], ⟨1, 2⟩, rfl, rfl⟩)

/-- Rounding characterisation used by C10: any unrounded score in
`[0.099995, 0.1)` is reported as exactly `0.1` by `round(·, 5)`. -/
theorem round5_eq_tenth (p : ℚ) (h1 : 99995/1000000 ≤ p) (h2 : p < 1/10) :
    round5 p = 1/10 := by
  have hfloor : ⌊p * 100000⌋ = 9999 := by
    rw [Int.floor_eq_iff]
    constructor
    · push_cast
      linarith
    · push_cast
      linarith
  have hge : ((1 : ℚ)/2) ≤ p * 100000 - ((9999 : ℤ) : ℚ) := by
    push_cast
    linarith
  have hrhe : roundHalfEven (p * 100000) = 10000 := by
    simp only [roundHalfEven]
    rw [hfloor]
    rw [if_neg (not_lt.mpr hge)]
    by_cases hgt : ((1 : ℚ)/2) < p * 100000 - ((9999 : ℤ) : ℚ)
    · rw [if_pos hgt]
      norm_num
    · rw [if_neg hgt]
      norm_num
  simp only [round5]
  rw [hrhe]
  norm_num

/-- Every successful result of the signal generator carries the regime
label derived from the regime flag, and the p-value it was given. -/
theorem get_live_signal_core_fields (regime : Bool × ℚ) (intraday : Option (List IRow))
    (fallback : Option (List DRow)) (now : String) (out : SignalOut)
    (h : get_live_signal_core regime intraday fallback now = Except.ok out) :
    out.regime = (if regime.1 then "ACTIVE" else "INACTIVE") ∧
    out.p_value = regime.2 := by
  simp only [get_live_signal_core] at h
  repeat' split at h
  all_goals
    first
    | (rw [Except.ok.injEq] at h
       subst h
       constructor <;> simp_all)
    | exact absurd h (by simp)

/-- C5: the regime flag is true exactly when the latest (unrounded)
rolling score is strictly below 0.10; a latest score of exactly 0.10
gives an inactive regime. -/
theorem spec_C5 (g : GTest RetVal) (daily : List (LRow ℚ)) (d : ℤ) (p : ℚ)
    (hlast : (rolling_p g (buildReturns daily)).getLast? = some (d, p)) :
    ((_get_daily_regime g (some daily)).1 = true ↔ p < 1/10) ∧
    (p = 1/10 → (_get_daily_regime g (some daily)).1 = false) := by
  have hfst : (_get_daily_regime g (some daily)).1 = decide (p < 1/10) := by
    simp only [_get_daily_regime, hlast]
  constructor
  · rw [hfst]
    simp
  · intro hp
    rw [hfst, hp]
    norm_num

/-- Witness for C5 at the boundary score 0.10, which yields an inactive
regime. -/
theorem spec_C5_witness :
    ((_get_daily_regime (@gConst RetVal 0 (1/10)) (some daily92)).1 = true ↔ (1 : ℚ)/10 < 1/10) ∧
    ((1 : ℚ)/10 = 1/10 → (_get_daily_regime (@gConst RetVal 0 (1/10)) (some daily92)).1 = false) :=
  spec_C5 (@gConst RetVal 0 (1/10)) daily92 91 (1/10) rfl

/-- C7: when the daily fetch fails, and likewise when the aligned
return series is too short (fewer than 91 rows) for even one rolling
window, the classifier returns the conservative default
`(active = false, p = 1.0)` instead of failing. -/
theorem spec_C7 (g : GTest RetVal) :
    _get_daily_regime g none = (false, 1) ∧
    (∀ daily : List (LRow ℚ), (buildReturns daily).length < 91 →
      _get_daily_regime g (some daily) = (false, 1)) := by
  refine ⟨rfl, ?_⟩
  intro daily hlen
  have hnil : rolling_p g (buildReturns daily) = [] := by
    have h0 : (rolling_p g (buildReturns daily)).length = 0 := by
      rw [rolling_p_length]
      omega
    exact List.length_eq_zero.mp h0
  simp [_get_daily_regime, hnil]

/-- Witness for C7: a failed fetch and an empty price table. -/
theorem spec_C7_witness :
    _get_daily_regime (@gConst RetVal 0 0) none = (false, 1) ∧
    _get_daily_regime (@gConst RetVal 0 0) (some []) = (false, 1) :=
  ⟨(spec_C7 (@gConst RetVal 0 0)).1,
   (spec_C7 (@gConst RetVal 0 0)).2 [] (by decide)⟩

/-- Auxiliary: membership in the paired rows is preserved when a row is
prepended in front. -/
theorem mem_pairRows_cons (x : LRow RetVal) (c : LRow ℚ) (l : List (LRow ℚ))
    (h : x ∈ pairRows l) : x ∈ pairRows (c :: l) := by
  cases l with
  | nil => exact absurd h (List.not_mem_nil x)
  | cons b rest => exact List.mem_cons_of_mem _ h

/-- Auxiliary: membership in the paired rows is preserved under
prepending any prefix of rows. -/
theorem mem_pairRows_append (x : LRow RetVal) (pre l : List (LRow ℚ))
    (h : x ∈ pairRows l) : x ∈ pairRows (pre ++ l) := by
  induction pre with
  | nil => simpa using h
  | cons c pre ih => exact mem_pairRows_cons x c (pre ++ l) ih

/-- C9 fails on the code: a zero price does not raise any error — its
log-return is an infinity, which is not `NaN`, survives `dropna`, and
stays in the return series handed to the rolling scan; a negative
price ratio gives `NaN` and the row is silently dropped, again with no
error.  (`InsufficientDataError` does not exist in the program.) -/
theorem spec_C9_counterexample :
    buildReturns c9daily =
      [⟨1, RetVal.fin (1/1), RetVal.negInf⟩, ⟨2, RetVal.fin (1/1), RetVal.posInf⟩] ∧
    buildReturns [⟨0, 1, 1⟩, ⟨1, 1, -1⟩] = [] :=
  ⟨rfl, rfl⟩

/-- C9 amended: a price of 0 with a positive predecessor produces a
`-inf` log-return whose row remains in the built return series (no
error is raised); a negative price ratio produces `NaN`; and the rows
that survive `dropna` are exactly the ones with no `NaN` cell, so `NaN`
rows are silently dropped rather than reported. -/
theorem spec_C9_amended (pre : List (LRow ℚ)) (a b : LRow ℚ) (post : List (LRow ℚ))
    (hab : 0 < a.btc) (hbb : 0 < b.btc) (hat : 0 < a.tsla) :
    (b.tsla = 0 →
      (⟨b.date, logRet a.btc b.btc, RetVal.negInf⟩ : LRow RetVal) ∈
        buildReturns (pre ++ a :: b :: post)) ∧
    (b.tsla < 0 → logRet a.tsla b.tsla = RetVal.nan) ∧
    (∀ daily : List (LRow ℚ), ∀ r ∈ buildReturns daily,
      r.btc.isNan = false ∧ r.tsla.isNan = false) := by
  refine ⟨?_, ?_, ?_⟩
  · intro h0
    have hts : logRet a.tsla b.tsla = RetVal.negInf := by
      unfold logRet
      rw [if_pos hat, h0]
      norm_num
    have hmem0 : (⟨b.date, logRet a.btc b.btc, logRet a.tsla b.tsla⟩ : LRow RetVal) ∈
        pairRows (a :: b :: post) :=
      List.mem_cons_self _ _
    rw [hts] at hmem0
    have hmem := mem_pairRows_append _ pre _ hmem0
    have hbtc : logRet a.btc b.btc = RetVal.fin (b.btc / a.btc) := by
      unfold logRet
      rw [if_pos hab, if_pos hbb]
    unfold buildReturns
    refine List.mem_filter.mpr ⟨hmem, ?_⟩
    rw [hbtc]
    rfl
  · intro hneg
    unfold logRet
    rw [if_pos hat, if_neg (by linarith), if_neg hneg.ne]
  · intro daily r hr
    have hkeep := (List.mem_filter.mp hr).2
    simp only [Bool.and_eq_true, Bool.not_eq_true'] at hkeep
    exact hkeep

/-- Witness for the amended C9: the zero TSLA price of `c9daily`
produces a `-inf` return row that stays in the series. -/
theorem spec_C9_witness :
    (⟨(1 : ℤ), logRet 1 1, RetVal.negInf⟩ : LRow RetVal) ∈
      buildReturns ([] ++ (⟨0, 1, 1⟩ : LRow ℚ) :: (⟨1, 1, 0⟩ : LRow ℚ) :: [(⟨2, 1, 1⟩ : LRow ℚ)]) :=
  (spec_C9_amended [] ⟨0, 1, 1⟩ ⟨1, 1, 0⟩ [⟨2, 1, 1⟩]
    (by show (0 : ℚ) < 1; norm_num)
    (by show (0 : ℚ) < 1; norm_num)
    (by show (0 : ℚ) < 1; norm_num)).1 rfl

/-- C10: the regime flag is decided on the unrounded latest score while
the exposed p-value is the score rounded to 5 decimals; hence for any
latest score in `[0.099995, 0.1)` the classifier reports the regime as
active together with the p-value `0.1`, which is not strictly below
the 0.10 threshold, and every Signal built from it shows regime
"ACTIVE" with p-value `0.1`. -/
theorem spec_C10 (g : GTest RetVal) (daily : List (LRow ℚ)) (d : ℤ) (p : ℚ)
    (hlast : (rolling_p g (buildReturns daily)).getLast? = some (d, p))
    (h1 : 99995/1000000 ≤ p) (h2 : p < 1/10) :
    _get_daily_regime g (some daily) = (true, 1/10) ∧
    ¬((_get_daily_regime g (some daily)).2 < 1/10) ∧
    (∀ intraday fallback now out,
      get_live_signal g (some daily) intraday fallback now = Except.ok out →
      out.regime = "ACTIVE" ∧ out.p_value = 1/10) := by
  have hreg : _get_daily_regime g (some daily) = (true, 1/10) := by
    simp only [_get_daily_regime, hlast]
    rw [round5_eq_tenth p h1 h2, Prod.mk.injEq]
    refine ⟨?_, rfl⟩
    rw [decide_eq_true_eq]
    exact h2
  refine ⟨hreg, ?_, ?_⟩
  · rw [hreg]
    norm_num
  · intro intraday fallback now out hok
    simp only [get_live_signal] at hok
    rw [hreg] at hok
    have hfields := get_live_signal_core_fields (true, 1/10) intraday fallback now out hok
    simpa using hfields

/-- Witness for C10 with latest unrounded score 0.099999: the regime is
reported active with p-value exactly 0.1. -/
theorem spec_C10_witness :
    _get_daily_regime (@gConst RetVal 0 (99999/1000000)) (some daily92) = (true, 1/10) :=
  (spec_C10 (@gConst RetVal 0 (99999/1000000)) daily92 91 (99999/1000000) rfl
    (by norm_num) (by norm_num)).1
